import Mathlib

/-!
Verification of the cryptohub-console tax core: the rate matcher
(`create_tax_transactions` in `cryptohub/tax_processor.py`), the tax-basis
converter (`TransactionForTax.__post_init__` in `cryptohub/transaction.py`)
and the annual aggregator (`Pit38Data.__post_init__` / `calculate_pit_38`).

Modelling choices:
* Python `Decimal` values are embedded as `ℚ`; `+`, `-`, `*`, `abs` are exact
  on `Decimal` (within context precision) and on `ℚ`.
  `Decimal.quantize(Decimal('0.01'))` uses the default rounding
  `ROUND_HALF_EVEN`, embedded as `q2` below.
* Calendar dates are embedded as `ℤ` (a day count); `date - timedelta(days=k)`
  is `d - k`.  A `datetime` carries its date and its calendar year as data
  (`DateTime` below); the claims never relate the two components.
* The per-currency `dict[date, ExchangeRate]` is an association list keyed by
  date (well-formed tables have at most one entry per date, like a dict).
* The unbounded `while True` loop of the rate matcher is embedded with a fuel
  parameter: `matchLoop ... fuel ... = none` means the loop has not reached
  its `break` within `fuel` iterations (the Python loop has no other exit, so
  `none` for every fuel is non-termination of the source loop).
* `raise ValueError` is embedded as `Except.error`.
-/

namespace CryptoHub

/-- Round a rational to the nearest integer, ties to the even integer:
Python `Decimal`'s default `ROUND_HALF_EVEN`. -/
def roundHalfEven (x : ℚ) : ℤ :=
  let f := Int.floor x
  let r := x - f
  if r < 1/2 then f
  else if 1/2 < r then f + 1
  else if f % 2 = 0 then f else f + 1

/-- `Decimal.quantize(Decimal('0.01'))`: round to two decimal places,
half-even. -/
def q2 (x : ℚ) : ℚ :=
  (roundHalfEven (x * 100) : ℚ) / 100

/-- Python `str.upper()`, character-wise ASCII uppercasing (the pipeline only
compares the results against the ASCII literals `"BUY"` and `"SELL"`). -/
def strUpper (s : String) : String :=
  ⟨s.data.map Char.toUpper⟩

/-- The date and calendar year of a Python `datetime`:
`day` is `timestamp.date()` as a day count, `year` is `timestamp.year`. -/
structure DateTime where
  day : ℤ
  year : ℤ
deriving DecidableEq

/-- `Transaction` from `cryptohub/transaction.py`. -/
structure Transaction where
  platform : String
  trade_id : String
  trading_pair : String
  base_currency : String
  quote_currency : String
  price : ℚ
  timestamp : DateTime
  volume : ℚ
  total_cost : ℚ
  fee : ℚ
  trade_type : String
deriving DecidableEq

/-- `ExchangeRate` from `cryptohub/transaction.py`. -/
structure ExchangeRate where
  rate_date : ℤ
  rate : ℚ
  base_currency : String
  quote_currency : String
deriving DecidableEq

/-- A per-currency rate table: `dict[datetime.date, ExchangeRate]`. -/
abbrev RateTable := List (ℤ × ExchangeRate)

/-- Dict lookup `currency_rates[search_date]` / membership
`search_date in currency_rates`. -/
def lookupRate (tbl : RateTable) (d : ℤ) : Option ExchangeRate :=
  match tbl with
  | [] => none
  | (k, r) :: rest => if k = d then some r else lookupRate rest d

/-- `rates_by_currency.get(quote_currency)`. -/
def lookupCurrency (rates : List (String × RateTable)) (c : String) :
    Option RateTable :=
  (rates.find? (fun p => p.1 == c)).map (fun p => p.2)

/-- `TransactionForTax` from `cryptohub/transaction.py`, with the derived
field computed at construction. -/
structure TransactionForTax where
  transaction : Transaction
  tax_exchange_rate : ExchangeRate
  total_cost_tax_currency : ℚ
deriving DecidableEq

/-- `TransactionForTax.__post_init__`: if the (upper-cased) trade type is
`"BUY"` add the fee, otherwise subtract it, then multiply by the rate. -/
def mkTransactionForTax (t : Transaction) (r : ExchangeRate) :
    TransactionForTax :=
  if strUpper t.trade_type = "BUY" then
    ⟨t, r, (t.total_cost + t.fee) * r.rate⟩
  else
    ⟨t, r, (t.total_cost - t.fee) * r.rate⟩

/-- The `while True` rate-search loop of `create_tax_transactions`
(`cryptohub/tax_processor.py`, lines 44-58), with state `days_back` and
`search_limit` and a fuel bound on the number of iterations: at each
iteration the candidate date is `tx_date - days_back`; if it is in the table
`days_back` is incremented and the loop breaks with the candidate's entry
when `days_back >= search_limit`; if it is absent both `days_back` and
`search_limit` are incremented and the loop continues without the check. -/
def matchLoop (tbl : RateTable) (txDate : ℤ) :
    Nat → Nat → Nat → Option ExchangeRate
  | 0, _, _ => none
  | fuel + 1, daysBack, searchLimit =>
    match lookupRate tbl (txDate - daysBack) with
    | some r =>
      if searchLimit ≤ daysBack + 1 then some r
      else matchLoop tbl txDate fuel (daysBack + 1) searchLimit
    | none => matchLoop tbl txDate fuel (daysBack + 1) (searchLimit + 1)

/-- The per-trade body of `create_tax_transactions`: skip trades quoted in
PLN, skip trades whose currency has no table or an empty table (`if not
currency_rates`), otherwise run the search loop starting from
`days_back = 0`, `search_limit = abs(settlement_day)` and collect the
matched transaction. -/
def processTrades (rates : List (String × RateTable)) (settlementDay : ℤ)
    (fuel : Nat) : List Transaction → List TransactionForTax
  | [] => []
  | t :: ts =>
    let rest := processTrades rates settlementDay fuel ts
    if t.quote_currency = "PLN" then rest
    else
      match lookupCurrency rates t.quote_currency with
      | none => rest
      | some currencyRates =>
        if currencyRates.isEmpty then rest
        else
          match matchLoop currencyRates t.timestamp.day fuel 0
              settlementDay.natAbs with
          | some r => mkTransactionForTax t r :: rest
          | none => rest

/-- `create_tax_transactions` (`cryptohub/tax_processor.py`): raise
`ValueError` when `settlement_day > 0`, otherwise process the trades. -/
def createTaxTransactions (transactions : List Transaction)
    (ratesByCurrency : List (String × RateTable)) (settlementDay : ℤ)
    (fuel : Nat) : Except String (List TransactionForTax) :=
  if settlementDay > 0 then
    Except.error "settlement_day must be zero or negative"
  else
    Except.ok (processTrades ratesByCurrency settlementDay fuel transactions)

/-- `Pit38Data` from `cryptohub/tax_processor.py`. -/
structure Pit38Data where
  year : ℤ
  field34_income : ℚ
  field35_costs_current_year : ℚ
  field36_costs_previous_years : ℚ
  field37_tax_base : ℚ
  field38_loss : ℚ
  field39_tax : ℚ
deriving DecidableEq

/-- `Pit38Data.__post_init__`: quantize the three input fields to two
decimals, form `result = income - (costs_current + costs_previous)` and fill
fields 37-39 by the sign of `result`. -/
def mkPit38Data (year : ℤ) (income costs35 costs36 : ℚ) : Pit38Data :=
  let income34 := q2 income
  let costsCur := q2 costs35
  let costsPrev := q2 costs36
  let result := income34 - (costsCur + costsPrev)
  if 0 < result then
    ⟨year, income34, costsCur, costsPrev,
      q2 result, 0, q2 (result * (19/100))⟩
  else
    ⟨year, income34, costsCur, costsPrev,
      0, q2 |result|, 0⟩

/-- Python `sum(...)`: a left fold of `+` starting from `0`. -/
def sumQ (l : List ℚ) : ℚ :=
  l.foldl (fun a b => a + b) 0

/-- `calculate_pit_38` (`cryptohub/tax_processor.py`): keep the transactions
of the requested year, sum converted costs of the SELL ones into field 34 and
of the BUY ones into field 35, pass the carried costs through as field 36. -/
def calculatePit38 (taxTransactions : List TransactionForTax) (forYear : ℤ)
    (previousYearCostField36 : ℚ) : Pit38Data :=
  let yearTransactions :=
    taxTransactions.filter (fun tx => tx.transaction.timestamp.year == forYear)
  let income :=
    sumQ ((yearTransactions.filter
      (fun tx => strUpper tx.transaction.trade_type == "SELL")).map
        (fun tx => tx.total_cost_tax_currency))
  let currentYearCosts :=
    sumQ ((yearTransactions.filter
      (fun tx => strUpper tx.transaction.trade_type == "BUY")).map
        (fun tx => tx.total_cost_tax_currency))
  mkPit38Data forYear income currentYearCosts previousYearCostField36

/-- The scan described by the specification's words (claim C1, taken
literally): maintain `hits` and `required`; at every candidate date increment
`hits`, at an absent date also increment `required`, and report the first
candidate date at which, after incrementing, `hits >= required` holds —
whether or not that date is present in the table. -/
def specScan (tbl : RateTable) (txDate : ℤ) :
    Nat → Nat → Nat → Nat → Option ℤ
  | 0, _, _, _ => none
  | fuel + 1, k, hits, required =>
    let d := txDate - k
    let present := (lookupRate tbl d).isSome
    let hits' := hits + 1
    let required' := if present then required else required + 1
    if required' ≤ hits' then some d
    else specScan tbl txDate fuel (k + 1) hits' required'

/-- The amended scan: same `hits` / `required` bookkeeping, but the stopping
condition is only examined at candidate dates present in the table, and the
entry of the stopping date is returned. -/
def specScanPresent (tbl : RateTable) (txDate : ℤ) :
    Nat → Nat → Nat → Nat → Option ExchangeRate
  | 0, _, _, _ => none
  | fuel + 1, k, hits, required =>
    match lookupRate tbl (txDate - k) with
    | some r =>
      if required ≤ hits + 1 then some r
      else specScanPresent tbl txDate fuel (k + 1) (hits + 1) required
    | none => specScanPresent tbl txDate fuel (k + 1) (hits + 1) (required + 1)

/-! ### Concrete sample data used by counterexamples and witnesses -/

/-- An EUR→PLN rate effective at day 19000. -/
def eurRate : ExchangeRate := ⟨19000, 43/10, "EUR", "PLN"⟩

/-- A BUY trade quoted in EUR on day 19000 of year 2024. -/
def buyTrade : Transaction :=
  ⟨"Kraken", "TX1", "BTCEUR", "BTC", "EUR", 5, ⟨19000, 2024⟩, 2, 1000, 10, "buy"⟩

/-- The same trade as a SELL. -/
def sellTrade : Transaction :=
  ⟨"Kraken", "TX1", "BTCEUR", "BTC", "EUR", 5, ⟨19000, 2024⟩, 2, 1000, 10, "sell"⟩

/-- A trade whose type is neither BUY nor SELL. -/
def transferTrade : Transaction :=
  ⟨"Kraken", "TX3", "BTCEUR", "BTC", "EUR", 5, ⟨19000, 2024⟩, 2, 1000, 10, "TRANSFER"⟩

/-- A trade quoted directly in the reporting currency. -/
def plnTrade : Transaction :=
  ⟨"Kraken", "TX2", "BTCPLN", "BTC", "PLN", 5, ⟨19000, 2024⟩, 2, 1000, 10, "buy"⟩

/-- A rate dictionary holding only the EUR table for `buyTrade`'s date. -/
def ratesForBuy : List (String × RateTable) := [("EUR", [(19000, eurRate)])]

/-- A rate effective the day before day `0`. -/
def priorRate : ExchangeRate := ⟨-1, 4, "EUR", "PLN"⟩

/-- A table holding only the day `-1` entry. -/
def priorOnlyTable : RateTable := [(-1, priorRate)]

/-- A rate effective at day `1`, strictly after day `0`. -/
def lateRate : ExchangeRate := ⟨1, 4, "EUR", "PLN"⟩

/-- A non-empty table with no entry on or before day `0`. -/
def futureOnlyTable : RateTable := [(1, lateRate)]

/-- The trade-day rate of the two-entry table below. -/
def dayRate : ExchangeRate := ⟨10, 41/10, "EUR", "PLN"⟩

/-- The prior-day rate of the two-entry table below. -/
def prevDayRate : ExchangeRate := ⟨9, 42/10, "EUR", "PLN"⟩

/-- A table with entries at both day 10 (a trade day) and day 9. -/
def bothDaysTable : RateTable := [(10, dayRate), (9, prevDayRate)]

/-- The last rate before the gap of `gapTable`. -/
def gapRate : ExchangeRate := ⟨8, 43/10, "EUR", "PLN"⟩

/-- A table with entries at days 10 and 8 and a gap at day 9. -/
def gapTable : RateTable := [(10, dayRate), (8, gapRate)]

/-! ### Rounding lemmas -/

lemma roundHalfEven_intCast (n : ℤ) : roundHalfEven (n : ℚ) = n := by
  simp only [roundHalfEven, Int.floor_intCast]
  norm_num

lemma q2_intCast_div (n : ℤ) : q2 ((n : ℚ) / 100) = (n : ℚ) / 100 := by
  unfold q2
  rw [div_mul_cancel₀ _ (by norm_num : (100 : ℚ) ≠ 0), roundHalfEven_intCast]

/-- Values with at most two decimal digits: the image of `q2`. -/
def TwoDecimal (x : ℚ) : Prop := ∃ n : ℤ, x = (n : ℚ) / 100

lemma twoDecimal_q2 (x : ℚ) : TwoDecimal (q2 x) := ⟨roundHalfEven (x * 100), rfl⟩

lemma TwoDecimal.q2_eq {x : ℚ} (h : TwoDecimal x) : q2 x = x := by
  obtain ⟨n, rfl⟩ := h
  exact q2_intCast_div n

lemma TwoDecimal.add {x y : ℚ} (hx : TwoDecimal x) (hy : TwoDecimal y) :
    TwoDecimal (x + y) := by
  obtain ⟨n, rfl⟩ := hx
  obtain ⟨m, rfl⟩ := hy
  exact ⟨n + m, by push_cast; ring⟩

lemma TwoDecimal.sub {x y : ℚ} (hx : TwoDecimal x) (hy : TwoDecimal y) :
    TwoDecimal (x - y) := by
  obtain ⟨n, rfl⟩ := hx
  obtain ⟨m, rfl⟩ := hy
  exact ⟨n - m, by push_cast; ring⟩

lemma q2_zero : q2 0 = 0 := by
  have h := q2_intCast_div 0
  simpa using h

/-! ### Projection lemmas -/

lemma mkPit38Data_year (y : ℤ) (i a b : ℚ) : (mkPit38Data y i a b).year = y := by
  simp only [mkPit38Data]
  split <;> rfl

lemma mkPit38Data_field34 (y : ℤ) (i a b : ℚ) :
    (mkPit38Data y i a b).field34_income = q2 i := by
  simp only [mkPit38Data]
  split <;> rfl

lemma mkPit38Data_field35 (y : ℤ) (i a b : ℚ) :
    (mkPit38Data y i a b).field35_costs_current_year = q2 a := by
  simp only [mkPit38Data]
  split <;> rfl

lemma mkPit38Data_field36 (y : ℤ) (i a b : ℚ) :
    (mkPit38Data y i a b).field36_costs_previous_years = q2 b := by
  simp only [mkPit38Data]
  split <;> rfl

lemma mkTransactionForTax_transaction (t : Transaction) (r : ExchangeRate) :
    (mkTransactionForTax t r).transaction = t := by
  unfold mkTransactionForTax
  split <;> rfl

/-! ### Claim theorems -/

/-- C3: the derived PIT-38 fields are computed from
`net = income − (current-year costs + prior-year costs)` over the
2-decimal-rounded inputs: when `net > 0` the taxable base is `net` rounded to
2 decimals, the loss is `0` and the tax due is 19% of the rounded `net`,
rounded after the multiplication; when `net ≤ 0` the base is `0`, the loss is
`|net|` rounded and the tax is `0`; `net = 0` gives all three equal to `0`. -/
theorem pit38_derived_fields (y : ℤ) (inc c35 c36 : ℚ) :
    (0 < q2 inc - (q2 c35 + q2 c36) →
      (mkPit38Data y inc c35 c36).field37_tax_base =
          q2 (q2 inc - (q2 c35 + q2 c36)) ∧
      (mkPit38Data y inc c35 c36).field38_loss = 0 ∧
      (mkPit38Data y inc c35 c36).field39_tax =
          q2 (q2 (q2 inc - (q2 c35 + q2 c36)) * (19/100))) ∧
    (q2 inc - (q2 c35 + q2 c36) ≤ 0 →
      (mkPit38Data y inc c35 c36).field37_tax_base = 0 ∧
      (mkPit38Data y inc c35 c36).field38_loss =
          q2 |q2 inc - (q2 c35 + q2 c36)| ∧
      (mkPit38Data y inc c35 c36).field39_tax = 0) ∧
    (q2 inc - (q2 c35 + q2 c36) = 0 →
      (mkPit38Data y inc c35 c36).field37_tax_base = 0 ∧
      (mkPit38Data y inc c35 c36).field38_loss = 0 ∧
      (mkPit38Data y inc c35 c36).field39_tax = 0) := by
  have htwo : TwoDecimal (q2 inc - (q2 c35 + q2 c36)) :=
    (twoDecimal_q2 inc).sub ((twoDecimal_q2 c35).add (twoDecimal_q2 c36))
  refine ⟨?_, ?_, ?_⟩
  · intro h
    simp only [mkPit38Data, if_pos h]
    exact ⟨trivial, trivial, by rw [htwo.q2_eq]⟩
  · intro h
    simp only [mkPit38Data, if_neg (not_lt.mpr h)]
    exact ⟨trivial, trivial, trivial⟩
  · intro h
    have h2 : ¬ 0 < q2 inc - (q2 c35 + q2 c36) := not_lt.mpr h.le
    refine ⟨by simp only [mkPit38Data, if_neg h2], ?_,
      by simp only [mkPit38Data, if_neg h2]⟩
    simp only [mkPit38Data, if_neg h2]
    rw [h, abs_zero, q2_zero]

/-- Witness for C3: the spec's scenarios 3 and 4.  Income 21.52 with no costs
gives base 21.52 and tax `round(21.52 × 0.19) = 4.09`; income 100 against
costs 150 gives loss 50 and no tax. -/
theorem pit38_derived_fields_witness :
    (mkPit38Data 2024 (2152/100) 0 0).field37_tax_base = 2152/100 ∧
    (mkPit38Data 2024 (2152/100) 0 0).field39_tax = 409/100 ∧
    (mkPit38Data 2024 100 150 0).field37_tax_base = 0 ∧
    (mkPit38Data 2024 100 150 0).field38_loss = 50 ∧
    (mkPit38Data 2024 100 150 0).field39_tax = 0 := by
  obtain ⟨h37, -, h39⟩ := (pit38_derived_fields 2024 (2152/100) 0 0).1
    (by norm_num [q2, roundHalfEven])
  obtain ⟨h37n, h38n, h39n⟩ := (pit38_derived_fields 2024 100 150 0).2.1
    (by norm_num [q2, roundHalfEven])
  refine ⟨?_, ?_, h37n, ?_, h39n⟩
  · rw [h37]; norm_num [q2, roundHalfEven]
  · rw [h39]; norm_num [q2, roundHalfEven]
  · rw [h38n]; norm_num [q2, roundHalfEven]

/-- C4: the converted cost of a matched trade is `(total cost + fee) × rate`
when the trade type upper-cases to BUY and `(total cost − fee) × rate` when
it upper-cases to SELL, with no rounding. -/
theorem fee_sign_conversion (t : Transaction) (r : ExchangeRate) :
    (strUpper t.trade_type = "BUY" →
      (mkTransactionForTax t r).total_cost_tax_currency =
        (t.total_cost + t.fee) * r.rate) ∧
    (strUpper t.trade_type = "SELL" →
      (mkTransactionForTax t r).total_cost_tax_currency =
        (t.total_cost - t.fee) * r.rate) := by
  constructor
  · intro h
    simp only [mkTransactionForTax, if_pos h]
  · intro h
    have hne : ¬ strUpper t.trade_type = "BUY" := by
      rw [h]; decide
    simp only [mkTransactionForTax, if_neg hne]

/-- Witness for C4: the spec's scenarios 1 and 2 — a BUY with total cost
1000, fee 10 and rate 4.30 converts to 4343, the same SELL to 4257. -/
theorem fee_sign_conversion_witness :
    (mkTransactionForTax buyTrade eurRate).total_cost_tax_currency = 4343 ∧
    (mkTransactionForTax sellTrade eurRate).total_cost_tax_currency = 4257 := by
  have h1 := (fee_sign_conversion buyTrade eurRate).1 rfl
  have h2 := (fee_sign_conversion sellTrade eurRate).2 rfl
  rw [h1, h2]
  constructor <;> norm_num [buyTrade, sellTrade, eurRate]

/-- C5: `calculate_pit_38` aggregates exactly the transactions of the
requested calendar year: field 34 is the sum of converted costs over the
SELL transactions of that year, field 35 the same sum over the BUY
transactions, and field 36 is the caller-supplied carry-forward passed
through (each stored after the uniform 2-decimal rounding of inputs). -/
theorem pit38_annual_aggregation (txs : List TransactionForTax) (y : ℤ)
    (prev : ℚ) :
    (calculatePit38 txs y prev).year = y ∧
    (calculatePit38 txs y prev).field34_income =
      q2 (sumQ ((txs.filter (fun tx =>
        (strUpper tx.transaction.trade_type == "SELL") &&
          (tx.transaction.timestamp.year == y))).map
            (fun tx => tx.total_cost_tax_currency))) ∧
    (calculatePit38 txs y prev).field35_costs_current_year =
      q2 (sumQ ((txs.filter (fun tx =>
        (strUpper tx.transaction.trade_type == "BUY") &&
          (tx.transaction.timestamp.year == y))).map
            (fun tx => tx.total_cost_tax_currency))) ∧
    (calculatePit38 txs y prev).field36_costs_previous_years = q2 prev := by
  refine ⟨?_, ?_, ?_, ?_⟩
  · simp only [calculatePit38, mkPit38Data_year]
  · simp only [calculatePit38, mkPit38Data_field34, List.filter_filter]
  · simp only [calculatePit38, mkPit38Data_field35, List.filter_filter]
  · simp only [calculatePit38, mkPit38Data_field36]

/-- Counterexample to C8: a trade whose type (`"TRANSFER"`) is neither BUY
nor SELL is not rejected — the converter computes a converted cost for it,
silently defaulting to the SELL branch `(1000 − 10) × 4.30 = 4257`. -/
theorem unknown_type_converted_counterexample :
    strUpper transferTrade.trade_type ≠ "BUY" ∧
    strUpper transferTrade.trade_type ≠ "SELL" ∧
    (mkTransactionForTax transferTrade eurRate).total_cost_tax_currency =
      4257 := by
  refine ⟨by decide, by decide, ?_⟩
  have hne : ¬ strUpper transferTrade.trade_type = "BUY" := by decide
  simp only [mkTransactionForTax, if_neg hne]
  norm_num [transferTrade, eurRate]

/-- C8 amended: a trade whose upper-cased type is not BUY gets the SELL-branch
converted cost `(total cost − fee) × rate` (no ingestion rejection exists);
but a transaction whose type is neither BUY nor SELL contributes to no
aggregated tax-form field. -/
theorem unknown_type_defaults_to_sell :
    (∀ (t : Transaction) (r : ExchangeRate), strUpper t.trade_type ≠ "BUY" →
      (mkTransactionForTax t r).total_cost_tax_currency =
        (t.total_cost - t.fee) * r.rate) ∧
    (∀ (tft : TransactionForTax) (txs : List TransactionForTax) (y : ℤ)
        (prev : ℚ),
      strUpper tft.transaction.trade_type ≠ "BUY" →
      strUpper tft.transaction.trade_type ≠ "SELL" →
      calculatePit38 (tft :: txs) y prev = calculatePit38 txs y prev) := by
  constructor
  · intro t r h
    simp only [mkTransactionForTax, if_neg h]
  · intro tft txs y prev hb hs
    have hsb : (strUpper tft.transaction.trade_type == "SELL") = false :=
      beq_eq_false_iff_ne.mpr hs
    have hbb : (strUpper tft.transaction.trade_type == "BUY") = false :=
      beq_eq_false_iff_ne.mpr hb
    unfold calculatePit38
    by_cases hy : tft.transaction.timestamp.year = y
    · simp [List.filter_cons, hy, hsb, hbb]
    · simp [List.filter_cons, hy]

/-- Witness for C8's amended theorem, at the concrete TRANSFER trade. -/
theorem unknown_type_defaults_to_sell_witness :
    (mkTransactionForTax transferTrade eurRate).total_cost_tax_currency =
      (transferTrade.total_cost - transferTrade.fee) * eurRate.rate ∧
    calculatePit38 [mkTransactionForTax transferTrade eurRate] 2024 0 =
      calculatePit38 [] 2024 0 := by
  constructor
  · exact unknown_type_defaults_to_sell.1 transferTrade eurRate (by decide)
  · exact unknown_type_defaults_to_sell.2
      (mkTransactionForTax transferTrade eurRate) [] 2024 0
      (by rw [mkTransactionForTax_transaction]; decide)
      (by rw [mkTransactionForTax_transaction]; decide)

/-- C9: a positive settlement offset is rejected before any trade is
processed — `create_tax_transactions` raises `ValueError` for every input
trade list and rate table, producing no output. -/
theorem settlement_positive_fail_fast (txs : List Transaction)
    (rates : List (String × RateTable)) (s : ℤ) (fuel : Nat) (h : 0 < s) :
    createTaxTransactions txs rates s fuel =
      Except.error "settlement_day must be zero or negative" := by
  unfold createTaxTransactions
  rw [if_pos h]

/-- Witness for C9 at `settlement_day = 1`. -/
theorem settlement_positive_fail_fast_witness :
    createTaxTransactions [buyTrade] [] 1 5 =
      Except.error "settlement_day must be zero or negative" :=
  settlement_positive_fail_fast [buyTrade] [] 1 5 (by norm_num)

lemma processTrades_no_pln (rates : List (String × RateTable)) (s : ℤ)
    (fuel : Nat) :
    ∀ (ts : List Transaction) (tft : TransactionForTax),
      tft ∈ processTrades rates s fuel ts →
      tft.transaction.quote_currency ≠ "PLN" := by
  intro ts
  induction ts with
  | nil =>
    intro tft h
    simp [processTrades] at h
  | cons t ts ih =>
    intro tft h
    simp only [processTrades] at h
    by_cases hq : t.quote_currency = "PLN"
    · rw [if_pos hq] at h
      exact ih tft h
    · rw [if_neg hq] at h
      cases hcur : lookupCurrency rates t.quote_currency with
      | none =>
        simp only [hcur] at h
        exact ih tft h
      | some currencyRates =>
        simp only [hcur] at h
        by_cases he : currencyRates.isEmpty
        · rw [if_pos he] at h
          exact ih tft h
        · rw [if_neg he] at h
          cases hm : matchLoop currencyRates t.timestamp.day fuel 0
              s.natAbs with
          | none =>
            simp only [hm] at h
            exact ih tft h
          | some r =>
            simp only [hm] at h
            rcases List.mem_cons.mp h with h1 | h2
            · rw [h1, mkTransactionForTax_transaction]
              exact hq
            · exact ih tft h2

/-- C10: a trade quoted in the reporting currency PLN is skipped before any
matching, and every transaction produced by `create_tax_transactions` has a
quote currency different from PLN. -/
theorem pln_trades_skipped :
    (∀ (t : Transaction) (ts : List Transaction)
        (rates : List (String × RateTable)) (s : ℤ) (fuel : Nat),
      t.quote_currency = "PLN" →
      processTrades rates s fuel (t :: ts) = processTrades rates s fuel ts) ∧
    (∀ (ts : List Transaction) (rates : List (String × RateTable)) (s : ℤ)
        (fuel : Nat) (out : List TransactionForTax)
        (tft : TransactionForTax),
      createTaxTransactions ts rates s fuel = Except.ok out → tft ∈ out →
      tft.transaction.quote_currency ≠ "PLN") := by
  constructor
  · intro t ts rates s fuel h
    simp only [processTrades, if_pos h]
  · intro ts rates s fuel out tft hok hmem
    unfold createTaxTransactions at hok
    by_cases hs : s > 0
    · rw [if_pos hs] at hok
      exact absurd hok (by simp)
    · rw [if_neg hs] at hok
      injection hok with hok'
      rw [← hok'] at hmem
      exact processTrades_no_pln rates s fuel ts tft hmem

/-- Witness for C10: a PLN-quoted trade is dropped from the batch, and the
surviving EUR transaction's quote currency is not PLN. -/
theorem pln_trades_skipped_witness :
    processTrades ratesForBuy 0 5 [plnTrade, buyTrade] =
      processTrades ratesForBuy 0 5 [buyTrade] ∧
    (mkTransactionForTax buyTrade eurRate).transaction.quote_currency ≠
      "PLN" := by
  constructor
  · exact pln_trades_skipped.1 plnTrade [buyTrade] ratesForBuy 0 5 rfl
  · exact pln_trades_skipped.2 [plnTrade, buyTrade] ratesForBuy 0 5
      [mkTransactionForTax buyTrade eurRate]
      (mkTransactionForTax buyTrade eurRate) rfl
      (List.mem_singleton.mpr rfl)

/-- C7: whenever the rate-search loop terminates, the entry it returns is an
entry of the rate table at a date on or before the trade date — the lookup
at the break step always succeeds and the post-loop no-match branch of
`create_tax_transactions` is unreachable. -/
theorem matchLoop_terminating_lookup_safe (tbl : RateTable) (txd : ℤ) :
    ∀ (fuel daysBack searchLimit : Nat) (r : ExchangeRate),
      matchLoop tbl txd fuel daysBack searchLimit = some r →
      ∃ d : ℤ, d ≤ txd ∧ lookupRate tbl d = some r := by
  intro fuel
  induction fuel with
  | zero =>
    intro db sl r h
    exact absurd h (by simp [matchLoop])
  | succ n ih =>
    intro db sl r h
    simp only [matchLoop] at h
    cases hl : lookupRate tbl (txd - db) with
    | some r' =>
      simp only [hl] at h
      by_cases hc : sl ≤ db + 1
      · rw [if_pos hc] at h
        injection h with h'
        exact ⟨txd - db, by omega, h' ▸ hl⟩
      · rw [if_neg hc] at h
        exact ih (db + 1) sl r h
    | none =>
      simp only [hl] at h
      exact ih (db + 1) (sl + 1) r h

/-- Witness for C7 at a one-entry table and a terminating run. -/
theorem matchLoop_terminating_lookup_safe_witness :
    ∃ d : ℤ, d ≤ 19000 ∧ lookupRate [(19000, eurRate)] d = some eurRate :=
  matchLoop_terminating_lookup_safe [(19000, eurRate)] 19000 1 0 1 eurRate rfl

lemma matchLoop_none_of_no_past_entry (tbl : RateTable) (txd : ℤ)
    (hempty : ∀ d : ℤ, d ≤ txd → lookupRate tbl d = none) :
    ∀ (fuel daysBack searchLimit : Nat),
      matchLoop tbl txd fuel daysBack searchLimit = none := by
  intro fuel
  induction fuel with
  | zero =>
    intro db sl
    rfl
  | succ n ih =>
    intro db sl
    have h := hempty (txd - db) (by omega)
    simp only [matchLoop, h]
    exact ih (db + 1) (sl + 1)

/-- C6 (code bug): on a non-empty rate table whose only entry lies strictly
after the trade date, the search loop's break condition never fires — for
every iteration bound the loop is still running, so the source's `while True`
never terminates and no match / no-match outcome is ever produced. -/
theorem matchLoop_diverges_on_future_only_table :
    ∀ (fuel daysBack searchLimit : Nat),
      matchLoop futureOnlyTable 0 fuel daysBack searchLimit = none := by
  apply matchLoop_none_of_no_past_entry
  intro d hd
  simp only [futureOnlyTable, lookupRate]
  rw [if_neg (by omega : ¬ (1 : ℤ) = d)]

/-- Counterexample to C1: with settlement offset 0 and a table lacking the
trade-day entry, the literal scan's stopping date is the trade day itself
(after the first, absent, candidate: `hits = 1 ≥ required = 1`), a date
with no table entry — while the code returns the entry dated one day
earlier. -/
theorem literal_scan_counterexample :
    specScan priorOnlyTable 0 2 0 0 0 = some 0 ∧
    lookupRate priorOnlyTable 0 = none ∧
    matchLoop priorOnlyTable 0 2 0 0 = some priorRate ∧
    priorRate.rate_date = -1 :=
  ⟨rfl, rfl, rfl, rfl⟩

lemma specScanPresent_eq_matchLoop (tbl : RateTable) (txd : ℤ) :
    ∀ (fuel k sl : Nat),
      specScanPresent tbl txd fuel k k sl = matchLoop tbl txd fuel k sl := by
  intro fuel
  induction fuel with
  | zero =>
    intro k sl
    rfl
  | succ n ih =>
    intro k sl
    simp only [specScanPresent, matchLoop]
    cases hl : lookupRate tbl (txd - k) with
    | some r =>
      dsimp only
      by_cases hc : sl ≤ k + 1
      · rw [if_pos hc, if_pos hc]
      · rw [if_neg hc, if_neg hc]
        exact ih (k + 1) sl
    | none =>
      exact ih (k + 1) (sl + 1)

/-- C1 amended: the matcher implements the hits/required backward scan with
the stopping test applied only at candidate dates present in the table: it
returns the table entry at the first present candidate date at which, after
incrementing, `hits ≥ required` holds. -/
theorem matchLoop_eq_present_scan (tbl : RateTable) (txd settlement : ℤ)
    (fuel : Nat) :
    matchLoop tbl txd fuel 0 settlement.natAbs =
      specScanPresent tbl txd fuel 0 0 settlement.natAbs :=
  (specScanPresent_eq_matchLoop tbl txd fuel 0 settlement.natAbs).symm

/-- C2 (code bug): with settlement offset −1 the matcher does NOT return the
rate of the day before the trade: on a table holding entries at both the
trade day (10) and the prior day (9) it returns the trade-day entry, and on
a table with a gap at day 9 it likewise returns the trade-day entry rather
than the prior trading day's (day 8) entry. -/
theorem settlement_minus_one_same_day_rate :
    matchLoop bothDaysTable 10 5 0 (Int.natAbs (-1)) = some dayRate ∧
    dayRate.rate_date = 10 ∧
    lookupRate bothDaysTable 9 = some prevDayRate ∧
    prevDayRate.rate_date = 9 ∧
    matchLoop gapTable 10 5 0 (Int.natAbs (-1)) = some dayRate ∧
    lookupRate gapTable 9 = none ∧
    lookupRate gapTable 8 = some gapRate ∧
    gapRate.rate_date = 8 :=
  ⟨rfl, rfl, rfl, rfl, rfl, rfl, rfl, rfl⟩

end CryptoHub
